import Mathlib

set_option maxRecDepth 4000
set_option maxHeartbeats 1000000

/-!
Shallow embedding of the scoring pipeline of `src/main.go` (stock-backend).

Conventions of the embedding:
* Go `float64` is modelled as `ℚ`.  All concrete values appearing in the
  claims are exactly representable, and none of the verified statements
  depends on rounding.  Go division by zero yields `Inf`/`NaN`; in `ℚ` it
  yields `0`.  No claim settled here is decided in that regime.
* BSON dynamic values (`interface{}` / `bson.M` / `primitive.A`) are
  modelled by the inductive type `Value`; a `bson.M` document is an
  association list (`Doc`).  Go map access `m[k]` on a missing key yields
  the `nil` interface, modelled by `Value.vNull`.
* A Go runtime panic (out-of-range slice index, failed type assertion)
  is modelled by `Option`: `none` means the Go code panics.
* `strconv.ParseFloat` is modelled by `parseGoFloat`, covering ordinary
  signed decimal numerals with optional fraction and exponent (the domain
  exercised by this repository's data; `NaN`, `Inf`, hex floats and
  digit-separating underscores are outside the model).
-/

/-- Dynamic BSON-style value: Go `interface{}` holding `nil`, `string`,
`float64`, `int`, `primitive.A` (array) or `bson.M` (document). -/
inductive Value where
  | vNull : Value
  | vStr : String → Value
  | vFloat : ℚ → Value
  | vInt : ℤ → Value
  | vArr : List Value → Value
  | vDoc : List (String × Value) → Value

/-- A `bson.M` document, modelled as an association list. -/
abbrev Doc := List (String × Value)

/-- Go map read `m[k]`: the stored value, or the `nil` interface when absent. -/
def docGet (d : Doc) (k : String) : Value :=
  (List.lookup k d).getD Value.vNull

/-- Character class of Go's `unicode.IsSpace` (the subset relevant here). -/
def isSpaceChar (c : Char) : Bool :=
  c == ' ' || c == '\t' || c == '\n' || c == '\r' || c == '\u000B' ||
  c == '\u000C' || c == '\u0085' || c == '\u00A0'

/-- Model of Go `strings.TrimSpace`. -/
def trimSpace (cs : List Char) : List Char :=
  ((cs.dropWhile isSpaceChar).reverse.dropWhile isSpaceChar).reverse

/-- Model of Go `strings.ReplaceAll(s, p, "")` for a one-character pattern `p`
(used for removing commas and percent signs). -/
def removeChar (c : Char) (cs : List Char) : List Char :=
  cs.filter (fun x => !(x == c))

/-- Model of Go `strings.Contains(s, p)` for a one-character pattern `p`. -/
def containsChar (c : Char) (cs : List Char) : Bool :=
  cs.any (fun x => x == c)

/-- Model of Go `strings.ReplaceAll(key, " +", " +")`: every
space-plus pair becomes a non-breaking-space-plus pair, scanning left to
right without overlap. -/
def replaceSpacePlus : List Char → List Char
  | [] => []
  | ' ' :: '+' :: rest => '\u00A0' :: '+' :: replaceSpacePlus rest
  | c :: rest => c :: replaceSpacePlus rest

/-- Numeric value of a list of decimal digit characters. -/
def digitsVal (ds : List Char) : ℕ :=
  ds.foldl (fun a c => 10 * a + (c.toNat - 48)) 0

/-- Longest prefix of decimal digits, and the remainder. -/
def takeDigits : List Char → List Char × List Char
  | [] => ([], [])
  | c :: cs =>
    if c.isDigit then
      let p := takeDigits cs
      (c :: p.1, p.2)
    else ([], c :: cs)

/-- Model of Go `strconv.ParseFloat` on ordinary decimal numerals:
optional sign, digits with at most one dot (at least one digit overall),
optional `e`/`E` exponent with optional sign.  `none` models a parse
error (Go then returns the value `0` together with the error). -/
def parseGoFloat (cs : List Char) : Option ℚ :=
  let sgn : Bool × List Char :=
    match cs with
    | '-' :: r => (true, r)
    | '+' :: r => (false, r)
    | _ => (false, cs)
  let ipr := takeDigits sgn.2
  let fpr : List Char × List Char :=
    match ipr.2 with
    | '.' :: r => takeDigits r
    | _ => ([], ipr.2)
  if ipr.1.isEmpty && fpr.1.isEmpty then none
  else
    let mant : ℚ := (digitsVal ipr.1 : ℚ) + (digitsVal fpr.1 : ℚ) / (10 : ℚ) ^ fpr.1.length
    let signed : ℚ → Option ℚ := fun q => some (if sgn.1 then -q else q)
    match fpr.2 with
    | [] => signed mant
    | e :: r =>
      if e == 'e' || e == 'E' then
        let esgn : Bool × List Char :=
          match r with
          | '-' :: r2 => (true, r2)
          | '+' :: r2 => (false, r2)
          | _ => (false, r)
        let edr := takeDigits esgn.2
        if edr.1.isEmpty || !edr.2.isEmpty then none
        else signed (if esgn.1 then mant / (10 : ℚ) ^ digitsVal edr.1
                     else mant * (10 : ℚ) ^ digitsVal edr.1)
      else none

/-- Embedding of `parseFloat` (src/main.go:172-187): the converter used by
the peer-comparison scorer.  It runs `strconv.ParseFloat` directly on the
string — no comma or percent handling — and passes through `float64`/`int`;
anything else (including parse failure) yields `0.0`. -/
def parseFloat : Value → ℚ
  | Value.vStr s =>
    match parseGoFloat s.data with
    | some f => f
    | none => 0
  | Value.vFloat f => f
  | Value.vInt n => (n : ℚ)
  | _ => 0

/-- Embedding of `toFloat` (src/main.go:836-863): strips commas, handles a
percent suffix by dividing by 100, returns `0.0` on parse failure, and
returns `0.0` for every non-string input. -/
def toFloat : Value → ℚ
  | Value.vStr s =>
    let clean := removeChar ',' s.data
    if containsChar '%' clean then
      match parseGoFloat (removeChar '%' clean) with
      | some f => f / 100
      | none => 0
    else
      match parseGoFloat clean with
      | some f => f
      | none => 0
  | _ => 0

/-- Is this dynamic value a Go `string`? -/
def Value.isStr : Value → Bool
  | Value.vStr _ => true
  | _ => false

/-- Embedding of `getMarketCapCategory` (src/main.go:878-895).  On a parse
error Go's `strconv.ParseFloat` returns the value `0`, the code only logs
the error and carries on, so an unparsable input is categorized as if the
market cap were `0`. -/
def getMarketCapCategory (marketCapValue : String) : String :=
  let marketCap : ℚ := (parseGoFloat (removeChar ',' marketCapValue.data)).getD 0
  if 20000 ≤ marketCap then "Large Cap"
  else if 5000 ≤ marketCap ∧ marketCap < 20000 then "Mid Cap"
  else if marketCap < 5000 then "Small Cap"
  else "Unknown Category"

/-- Embedding of the `Stock` struct (src/main.go:37-47). -/
structure Stock where
  name : String
  pe : ℚ
  marketCap : ℚ
  dividendYield : ℚ
  roce : ℚ
  quarterlySales : ℚ
  quarterlyProfit : ℚ
  cons : List String
  pros : List String

/-- Points one peer contributes inside the peer loop of `compareWithPeers`
(src/main.go:80-117): six independent comparisons of the target stock
against the peer record's parsed fields. -/
def peerPoints (stock : Stock) (peer : Doc) : ℚ :=
  (if stock.pe < parseFloat (docGet peer "pe") then 10
   else max 0 (10 - (stock.pe - parseFloat (docGet peer "pe"))))
  + (if parseFloat (docGet peer "market_cap") < stock.marketCap then 5 else 0)
  + (if parseFloat (docGet peer "div_yield") < stock.dividendYield then 5 else 0)
  + (if parseFloat (docGet peer "roce") < stock.roce then 10 else 0)
  + (if parseFloat (docGet peer "sales_qtr") < stock.quarterlySales then 5 else 0)
  + (if parseFloat (docGet peer "np_qtr") < stock.quarterlyProfit then 10 else 0)

/-- Points the distinguished median record contributes in `compareWithPeers`
(src/main.go:118-154): the same comparisons with smaller weights. -/
def medianPoints (stock : Stock) (median : Doc) : ℚ :=
  (if stock.pe < parseFloat (docGet median "pe") then 5
   else max 0 (5 - (stock.pe - parseFloat (docGet median "pe"))))
  + (if parseFloat (docGet median "market_cap") < stock.marketCap then 3 else 0)
  + (if parseFloat (docGet median "div_yield") < stock.dividendYield then 3 else 0)
  + (if parseFloat (docGet median "roce") < stock.roce then 5 else 0)
  + (if parseFloat (docGet median "sales_qtr") < stock.quarterlySales then 2 else 0)
  + (if parseFloat (docGet median "np_qtr") < stock.quarterlyProfit then 5 else 0)

/-- The peer loop of `compareWithPeers` (src/main.go:80-117): each element of
`arr[:len(arr)-1]` is asserted to be a `bson.M` (`none` models the panic of a
failed type assertion) and its points are accumulated. -/
def sumPeerPoints (stock : Stock) : List Value → Option ℚ
  | [] => some 0
  | Value.vDoc d :: rest =>
    (sumPeerPoints stock rest).map (fun r => peerPoints stock d + r)
  | _ :: _ => none

/-- Embedding of `compareWithPeers` (src/main.go:69-169).  A non-array
`peers` value falls through to `finalScore := peerScore*0.9 + medianScore*0.1`
with both accumulators still `0`.  For an array: fewer than 2 elements
returns `0.0` at once; otherwise all elements but the last are scored as
peers, the last element is scored as the median into the same accumulator,
and the accumulated total is divided by the peer count `len(arr)-1` (the
`else` branch of that final division is dead code, kept for fidelity). -/
def compareWithPeers (stock : Stock) (peers : Value) : Option ℚ :=
  match peers with
  | Value.vArr arr =>
    if arr.length < 2 then some 0
    else
      match sumPeerPoints stock arr.dropLast with
      | none => none
      | some ps =>
        match arr.getLast? with
        | some (Value.vDoc m) =>
          let total := ps + medianPoints stock m
          let peerCount := arr.length - 1
          if 0 < peerCount then some (total / (peerCount : ℚ))
          else some (total * (9 / 10))
        | _ => none
  | _ => some 0

/-- One scoring step of `analyzeTrend`'s inner key loop (src/main.go:209-220):
`+5` if the current value exceeds the previous, `-5` if it is below, `0`
otherwise; the comparison counter is incremented in every case. -/
def stepPts (p c : ℚ) : ℚ :=
  if p < c then 5 else if c < p then -5 else 0

/-- Total of `stepPts` over consecutive values of one label, seeded with the
label's first value. -/
def chainPts : ℚ → List ℚ → ℚ
  | _, [] => 0
  | p, c :: r => stepPts p c + chainPts c r

/-- The per-key comparison loop of `analyzeTrend` (src/main.go:209-220):
iterate over the keys of the current period entry; each key also present in
the previous entry contributes `stepPts` and one counted comparison. -/
def compareMaps (cur prev : Doc) : ℚ × ℕ :=
  cur.foldl
    (fun acc kv =>
      match List.lookup kv.1 prev with
      | some pv => (acc.1 + stepPts (toFloat pv) (toFloat kv.2), acc.2 + 1)
      | none => acc)
    (0, 0)

/-- The per-section element loop of `analyzeTrend` (src/main.go:198-226):
walk the period entries, comparing each `bson.M` entry with the previous
`bson.M` entry; non-document entries are skipped and leave the previous
entry unchanged. -/
def trendGo (prev : Option Doc) : List Value → ℚ × ℕ
  | [] => (0, 0)
  | Value.vDoc m :: rest =>
    let head : ℚ × ℕ :=
      match prev with
      | some p => compareMaps m p
      | none => (0, 0)
    let tail := trendGo (some m) rest
    (head.1 + tail.1, head.2 + tail.2)
  | _ :: rest => trendGo prev rest

/-- Embedding of `analyzeTrend` (src/main.go:188-235): sum `trendGo` over
every section whose value is an array, then divide the grand total by the
number of counted comparisons, returning `0.0` when none occurred.  Inputs
that are not a `bson.M` yield `0.0`. -/
def analyzeTrend (stock : Stock) (pastData : Value) : ℚ :=
  match pastData with
  | Value.vDoc data =>
    let totals :=
      data.foldl
        (fun acc kv =>
          match kv.2 with
          | Value.vArr qa =>
            let sc := trendGo none qa
            (acc.1 + sc.1, acc.2 + sc.2)
          | _ => acc)
        ((0 : ℚ), (0 : ℕ))
    if 0 < totals.2 then totals.1 / (totals.2 : ℚ) else 0
  | _ => 0

/-- Key normalization of `getNestedArrayField` (src/main.go:419-425):
trim, then if the key contains `+` replace every `" +"` with the
non-breaking-space-plus encoding. -/
def normalizeKey (key : String) : String :=
  let k1 := trimSpace key.data
  ⟨if containsChar '+' k1 then replaceSpacePlus k1 else k1⟩

/-- Embedding of `getNestedArrayField` (src/main.go:416-444): walk the path,
normalizing each key; intermediate keys must reach a `bson.M` and the final
key must reach a `primitive.A`, otherwise the empty array is returned. -/
def getNestedArrayField : Doc → List String → List Value
  | _, [] => []
  | current, key :: rest =>
    let k := normalizeKey key
    if rest.isEmpty then
      match List.lookup k current with
      | some (Value.vArr a) => a
      | _ => []
    else
      match List.lookup k current with
      | some (Value.vDoc d) => getNestedArrayField d rest
      | _ => []

/-- Go slice index `a[i]` for a possibly negative index: `none` models the
out-of-range panic. -/
def goIndex (a : List Value) (i : ℤ) : Option Value :=
  if i < 0 then none else a.get? i.toNat

/-- Go type assertion `v.(string)`: `none` models the panic. -/
def asString : Value → Option String
  | Value.vStr s => some s
  | _ => none

/-- Go `a[i].(string)`. -/
def stringAt (a : List Value) (i : ℤ) : Option String :=
  (goIndex a i).bind asString

/-- Total array read used where the Go index is already guarded in range
(the default is never observable there). -/
def valueAt (a : List Value) (n : ℕ) : Value :=
  a.getD n Value.vNull

/-- Embedding of `calculateRoa` (src/main.go:280-285). -/
def calculateRoa (netProfit totalAssets : String) : ℚ :=
  toFloat (Value.vStr netProfit) / toFloat (Value.vStr totalAssets)

/-- Embedding of `increaseInRoa` (src/main.go:287-295).  The Go function
indexes `netProfit[len-2]`, `netProfit[len-3]`, `totalAssets[len-1]` and
`totalAssets[len-2]` with **no length guard** and asserts each element to
be a string; `none` models the resulting panic on short histories. -/
def increaseInRoa (netProfit totalAssets : List Value) : Option Bool :=
  match stringAt netProfit ((netProfit.length : ℤ) - 2),
        stringAt totalAssets ((totalAssets.length : ℤ) - 1),
        stringAt netProfit ((netProfit.length : ℤ) - 3),
        stringAt totalAssets ((totalAssets.length : ℤ) - 2) with
  | some np1, some ta1, some np0, some ta0 =>
    some (decide (calculateRoa np0 ta0 < calculateRoa np1 ta1))
  | _, _, _, _ => none

/-- Check 1.1 of `calculateProfitabilityScore` (src/main.go:310-319):
positive ROA.  The guard only requires both sequences non-empty, yet the
code indexes `netProfit[len-2]` and asserts strings, so a length-1
net-profit history or a non-string entry still panics (`none`). -/
def profitCheck1 (netProfit totalAssets : List Value) : Option ℤ :=
  if 0 < netProfit.length ∧ 0 < totalAssets.length then
    match stringAt netProfit ((netProfit.length : ℤ) - 2),
          stringAt totalAssets ((totalAssets.length : ℤ) - 1) with
    | some np, some ta => some (if 0 < calculateRoa np ta then 1 else 0)
    | _, _ => none
  else some 0

/-- Check 1.2 of `calculateProfitabilityScore` (src/main.go:321-329):
operating cash flow grew versus the previous period. -/
def profitCheck2 (cashFlowOps : List Value) : ℤ :=
  if 1 < cashFlowOps.length then
    if toFloat (valueAt cashFlowOps (cashFlowOps.length - 2)) <
       toFloat (valueAt cashFlowOps (cashFlowOps.length - 1)) then 1 else 0
  else 0

/-- Check 1.4 of `calculateProfitabilityScore` (src/main.go:336-343):
operating cash flow exceeds net profit of the second-most-recent period. -/
def profitCheck4 (cashFlowOps netProfit : List Value) : ℤ :=
  if 0 < cashFlowOps.length ∧ 1 < netProfit.length then
    if toFloat (valueAt netProfit (netProfit.length - 2)) <
       toFloat (valueAt cashFlowOps (cashFlowOps.length - 1)) then 1 else 0
  else 0

/-- Embedding of `calculateProfitabilityScore` (src/main.go:306-346):
checks 1.1, 1.2, the unguarded `increaseInRoa` call (check 1.3), and
check 1.4.  `none` models a panic in check 1.1 or 1.3. -/
def calculateProfitabilityScore (stock : Doc) : Option ℤ :=
  let netProfit := getNestedArrayField stock ["profitLoss", "Net Profit +"]
  let totalAssets := getNestedArrayField stock ["balanceSheet", "Total Assets"]
  let cashFlowOps := getNestedArrayField stock ["cashFlows", "Cash from Operating Activity +"]
  match profitCheck1 netProfit totalAssets, increaseInRoa netProfit totalAssets with
  | some s1, some b =>
    some (s1 + profitCheck2 cashFlowOps + (if b then 1 else 0) + profitCheck4 cashFlowOps netProfit)
  | _, _ => none

/-- Check 2.1 of `calculateLeverageScore` (src/main.go:352-361). -/
def levCheck1 (borrowings totalAssets : List Value) : ℤ :=
  if 1 < borrowings.length ∧ 1 < totalAssets.length then
    if toFloat (valueAt borrowings (borrowings.length - 1)) /
         toFloat (valueAt totalAssets (totalAssets.length - 1)) ≤
       toFloat (valueAt borrowings (borrowings.length - 2)) /
         toFloat (valueAt totalAssets (totalAssets.length - 2)) then 1 else 0
  else 0

/-- Check 2.2 of `calculateLeverageScore` (src/main.go:363-372). -/
def levCheck2 (otherAssets otherLiabilities : List Value) : ℤ :=
  if 1 < otherAssets.length ∧ 1 < otherLiabilities.length then
    if toFloat (valueAt otherAssets (otherAssets.length - 2)) /
         toFloat (valueAt otherLiabilities (otherLiabilities.length - 2)) <
       toFloat (valueAt otherAssets (otherAssets.length - 1)) /
         toFloat (valueAt otherLiabilities (otherLiabilities.length - 1)) then 1 else 0
  else 0

/-- Check 2.3 of `calculateLeverageScore` (src/main.go:374-382). -/
def levCheck3 (equityCapital : List Value) : ℤ :=
  if 1 < equityCapital.length then
    if toFloat (valueAt equityCapital (equityCapital.length - 1)) ≤
       toFloat (valueAt equityCapital (equityCapital.length - 2)) then 1 else 0
  else 0

/-- Embedding of `calculateLeverageScore` (src/main.go:348-385). -/
def calculateLeverageScore (stock : Doc) : ℤ :=
  levCheck1 (getNestedArrayField stock ["balanceSheet", "Borrowings +"])
      (getNestedArrayField stock ["balanceSheet", "Total Assets"])
  + levCheck2 (getNestedArrayField stock ["balanceSheet", "Other Assets +"])
      (getNestedArrayField stock ["balanceSheet", "Other Liabilities +"])
  + levCheck3 (getNestedArrayField stock ["balanceSheet", "Equity Capital"])

/-- Check 3.1 of `calculateOperatingEfficiencyScore` (src/main.go:391-399). -/
def effCheck1 (opm : List Value) : ℤ :=
  if 2 < opm.length then
    if toFloat (valueAt opm (opm.length - 3)) <
       toFloat (valueAt opm (opm.length - 2)) then 1 else 0
  else 0

/-- Check 3.2 of `calculateOperatingEfficiencyScore` (src/main.go:401-410). -/
def effCheck2 (sales totalAssets : List Value) : ℤ :=
  if 2 < sales.length ∧ 1 < totalAssets.length then
    if toFloat (valueAt sales (sales.length - 3)) /
         toFloat (valueAt totalAssets (totalAssets.length - 2)) <
       toFloat (valueAt sales (sales.length - 2)) /
         toFloat (valueAt totalAssets (totalAssets.length - 1)) then 1 else 0
  else 0

/-- Embedding of `calculateOperatingEfficiencyScore` (src/main.go:387-413). -/
def calculateOperatingEfficiencyScore (stock : Doc) : ℤ :=
  effCheck1 (getNestedArrayField stock ["profitLoss", "OPM %"])
  + effCheck2 (getNestedArrayField stock ["profitLoss", "Sales +"])
      (getNestedArrayField stock ["balanceSheet", "Total Assets"])

/-- Embedding of `generateFScore` (src/main.go:298-304): the sum of the
three sub-scores; `none` models a panic inside the profitability score. -/
def generateFScore (stock : Doc) : Option ℤ :=
  (calculateProfitabilityScore stock).map
    (fun p => p + calculateLeverageScore stock + calculateOperatingEfficiencyScore stock)

/-- Target stock used by the C1 theorems: PE 0, every other scalar 1. -/
def c1Stock : Stock := Stock.mk "s" 0 1 1 1 1 1 [] []

/-- C1 counterexample.  For the 3-element peer set of empty records (two
peers plus the median), each peer contributes 45 points and the median
comparison contributes 23, and the code returns `(90 + 23) / 2 = 56.5`:
the median points are divided by the peer count together with the peer
points.  The claim demands `90 / 2 + 23 = 68` (peer average plus the
median bonus un-normalized), which differs. -/
theorem c1_counterexample :
    compareWithPeers c1Stock (Value.vArr [Value.vDoc [], Value.vDoc [], Value.vDoc []])
        = some (113 / 2)
    ∧ (peerPoints c1Stock [] + peerPoints c1Stock []) / 2 + medianPoints c1Stock [] = 68
    ∧ (113 / 2 : ℚ) ≠ 68 := by
  refine ⟨?_, ?_, ?_⟩
  · simp +decide [compareWithPeers, sumPeerPoints, peerPoints, medianPoints, docGet,
      parseFloat, c1Stock]
    norm_num
  · simp +decide [peerPoints, medianPoints, docGet, parseFloat, c1Stock]
    norm_num
  · norm_num

/-- The peer loop over a list of documents accumulates `peerPoints`. -/
theorem sumPeerPoints_map (stock : Stock) (ps : List Doc) :
    sumPeerPoints stock (ps.map Value.vDoc) = some ((ps.map (peerPoints stock)).sum) := by
  induction ps with
  | nil => rfl
  | cons p rest ih => simp [sumPeerPoints, ih]

/-- C1 amended: for every non-empty list of peer records followed by a
median record, `compareWithPeers` divides the **whole** accumulated total —
per-peer points plus the median-comparison points — by the peer count; the
median bonus is averaged together with the peer points, not flat-added. -/
theorem c1_amended (stock : Stock) (ps : List Doc) (m : Doc) (h : ps ≠ []) :
    compareWithPeers stock (Value.vArr (ps.map Value.vDoc ++ [Value.vDoc m]))
      = some (((ps.map (peerPoints stock)).sum + medianPoints stock m) / (ps.length : ℚ)) := by
  have hpos : 0 < ps.length := List.length_pos.mpr h
  have hlt : ¬ (ps.map Value.vDoc ++ [Value.vDoc m]).length < 2 := by
    simp
    omega
  simp only [compareWithPeers]
  rw [if_neg hlt, List.dropLast_concat, sumPeerPoints_map, List.getLast?_concat]
  simp only [List.length_append, List.length_map, List.length_cons, List.length_nil,
    Nat.add_sub_cancel]
  rw [if_pos hpos]

/-- Witness for `c1_amended`: one peer plus a median, both records empty. -/
theorem c1_amended_witness :
    compareWithPeers c1Stock (Value.vArr (([([] : Doc)]).map Value.vDoc ++ [Value.vDoc []]))
      = some (((([([] : Doc)]).map (peerPoints c1Stock)).sum + medianPoints c1Stock [])
          / ((([([] : Doc)] : List Doc)).length : ℚ)) :=
  c1_amended c1Stock [([] : Doc)] [] (by simp)

/-- C7: for every peer-set array containing fewer than 2 entries,
`compareWithPeers` returns exactly `0.0` without raising an error
(src/main.go:73-78). -/
theorem c7_small_peerset_zero (stock : Stock) (arr : List Value)
    (h : arr.length < 2) :
    compareWithPeers stock (Value.vArr arr) = some 0 := by
  simp [compareWithPeers, h]

/-- Witness for `c7_small_peerset_zero`: the empty peer set scores `0.0`. -/
theorem c7_small_peerset_zero_witness :
    compareWithPeers (Stock.mk "s" 1 1 1 1 1 1 [] []) (Value.vArr []) = some 0 :=
  c7_small_peerset_zero (Stock.mk "s" 1 1 1 1 1 1 [] []) [] (by decide)

/-- C2 (code bug): a record with no stored net-profit / total-assets
history reaches `increaseInRoa` anyway — `calculateProfitabilityScore`
calls it with no length guard (src/main.go:332) — and the Go code panics
indexing `netProfit[len-2] = netProfit[-2]` (`none` in this embedding).
The profitability checks do not degrade to a `0` contribution as the
claim requires: the F-score computation crashes. -/
theorem c2_insufficient_history_panics :
    getNestedArrayField ([] : Doc) ["profitLoss", "Net Profit +"] = []
    ∧ increaseInRoa [] [] = none
    ∧ calculateProfitabilityScore ([] : Doc) = none
    ∧ generateFScore ([] : Doc) = none :=
  ⟨rfl, rfl, rfl, rfl⟩

/-- C3 counterexample: the unparsable market-cap string "abc" is
categorized as "Small Cap", not "Unknown Category": the failed parse
leaves the value `0`, which falls into the `< 5000` branch. -/
theorem c3_counterexample :
    getMarketCapCategory "abc" = "Small Cap"
    ∧ "Small Cap" ≠ "Unknown Category" := by
  refine ⟨?_, by decide⟩
  simp +decide [getMarketCapCategory, removeChar, parseGoFloat, takeDigits]

/-- C3 amended: the documented thresholds hold for every parsable input
(≥ 20000 ⇒ Large Cap, [5000, 20000) ⇒ Mid Cap, < 5000 ⇒ Small Cap,
including the four boundary examples), but an **unparsable** string is
categorized as "Small Cap" — the value defaults to 0 — rather than
"Unknown Category". -/
theorem c3_amended :
    (∀ s : String, parseGoFloat (removeChar ',' s.data) = none →
        getMarketCapCategory s = "Small Cap")
    ∧ (∀ (s : String) (q : ℚ), parseGoFloat (removeChar ',' s.data) = some q →
        getMarketCapCategory s =
          (if 20000 ≤ q then "Large Cap" else if 5000 ≤ q then "Mid Cap" else "Small Cap"))
    ∧ getMarketCapCategory "5000" = "Mid Cap"
    ∧ getMarketCapCategory "19999.99" = "Mid Cap"
    ∧ getMarketCapCategory "20000" = "Large Cap"
    ∧ getMarketCapCategory "4999.99" = "Small Cap" := by
  refine ⟨?_, ?_, ?_, ?_, ?_, ?_⟩
  · intro s h
    simp only [getMarketCapCategory, h, Option.getD_none]
    norm_num
  · intro s q h
    simp only [getMarketCapCategory, h, Option.getD_some]
    rcases le_or_lt 20000 q with h1 | h1
    · rw [if_pos h1, if_pos h1]
    · rw [if_neg (not_le.mpr h1), if_neg (not_le.mpr h1)]
      rcases le_or_lt 5000 q with h2 | h2
      · rw [if_pos (And.intro h2 h1), if_pos h2]
      · rw [if_neg (fun hh => absurd hh.1 (not_le.mpr h2)), if_pos h2,
          if_neg (not_le.mpr h2)]
  · simp +decide [getMarketCapCategory, removeChar, parseGoFloat, takeDigits, digitsVal]
    try norm_num
  · simp +decide [getMarketCapCategory, removeChar, parseGoFloat, takeDigits, digitsVal]
    try norm_num
  · simp +decide [getMarketCapCategory, removeChar, parseGoFloat, takeDigits, digitsVal]
    try norm_num
  · simp +decide [getMarketCapCategory, removeChar, parseGoFloat, takeDigits, digitsVal]
    try norm_num

/-- Witness for `c3_amended`: applies the unparsable-input clause at the
string "not a number". -/
theorem c3_amended_witness :
    parseGoFloat (removeChar ',' ("not a number").data) = none
    ∧ getMarketCapCategory "not a number" = "Small Cap" :=
  ⟨by decide, c3_amended.1 "not a number" (by decide)⟩

/-- C5 counterexample: the conversion used by the Peer Comparison Scorer is
`parseFloat`, which runs `strconv.ParseFloat` on the raw string; the comma
makes the parse fail, so the peer field "1,234.5" yields `0.0`, not the
`1234.5` the claim requires. -/
theorem c5_counterexample :
    parseFloat (Value.vStr "1,234.5") = 0 ∧ (0 : ℚ) ≠ 1234.5 := by
  refine ⟨by decide, by norm_num⟩

/-- C5 amended: `parseFloat` does **not** strip thousands separators and
does **not** handle percent suffixes; it parses plain numeric strings
directly (and passes native numbers through) and yields `0.0` on any
parse failure, so both "1,234.5" and a percent-suffixed value map to
`0.0`. -/
theorem c5_amended :
    parseFloat (Value.vStr "1,234.5") = 0
    ∧ parseFloat (Value.vStr "1234.5") = 1234.5
    ∧ parseFloat (Value.vStr "12.5%") = 0
    ∧ (∀ s : String, parseGoFloat s.data = none → parseFloat (Value.vStr s) = 0) := by
  refine ⟨by decide, ?_, by decide, ?_⟩
  · simp +decide [parseFloat, parseGoFloat, takeDigits, digitsVal]
    norm_num
  · intro s hs
    simp [parseFloat, hs]

/-- Witness for `c5_amended`: applies the parse-failure clause at "x,y". -/
theorem c5_amended_witness :
    parseGoFloat ("x,y").data = none ∧ parseFloat (Value.vStr "x,y") = 0 :=
  ⟨by decide, c5_amended.2.2.2 "x,y" (by decide)⟩

/-- C8: `toFloat` maps "1,234.5%" to 12.345 and "1,234.5" to 1234.5, and a
non-numeric string — one whose comma-stripped form fails to parse both as
is and after percent-stripping — yields `0.0`.  `toFloat` is a total
function of this embedding, as in the Go code, which cannot panic on a
string input. -/
theorem c8_toFloat_spec :
    toFloat (Value.vStr "1,234.5%") = 12.345
    ∧ toFloat (Value.vStr "1,234.5") = 1234.5
    ∧ (∀ s : String,
        parseGoFloat (removeChar ',' s.data) = none →
        parseGoFloat (removeChar '%' (removeChar ',' s.data)) = none →
        toFloat (Value.vStr s) = 0) := by
  refine ⟨?_, ?_, ?_⟩
  · simp +decide [toFloat, removeChar, containsChar, parseGoFloat, takeDigits, digitsVal]
    norm_num
  · simp +decide [toFloat, removeChar, containsChar, parseGoFloat, takeDigits, digitsVal]
    norm_num
  · intro s h1 h2
    by_cases hc : containsChar '%' (removeChar ',' s.data)
    · simp [toFloat, hc, h2]
    · simp [toFloat, hc, h1]

/-- Witness for `c8_toFloat_spec`: applies the non-numeric clause at "abc". -/
theorem c8_toFloat_spec_witness :
    (parseGoFloat (removeChar ',' ("abc").data) = none
      ∧ parseGoFloat (removeChar '%' (removeChar ',' ("abc").data)) = none)
    ∧ toFloat (Value.vStr "abc") = 0 :=
  ⟨⟨by decide, by decide⟩, c8_toFloat_spec.2.2 "abc" (by decide) (by decide)⟩

/-- C10: every input that is not a Go `string` — `nil`, `float64`, `int`,
array or document — makes `toFloat` return exactly `0.0`: only the string
case of the type switch does any work (src/main.go:837-862). -/
theorem c10_toFloat_nonstring (v : Value) (h : v.isStr = false) : toFloat v = 0 := by
  cases v with
  | vStr s => simp [Value.isStr] at h
  | vNull => rfl
  | vFloat q => rfl
  | vInt n => rfl
  | vArr a => rfl
  | vDoc d => rfl

/-- Witness for `c10_toFloat_nonstring`: the native `float64` value 3.5 is
converted to `0.0`. -/
theorem c10_toFloat_nonstring_witness :
    (Value.vFloat (35 / 10)).isStr = false ∧ toFloat (Value.vFloat (35 / 10)) = 0 :=
  ⟨rfl, c10_toFloat_nonstring (Value.vFloat (35 / 10)) rfl⟩

/-- Profitability check 1.1 contributes 0 or 1 whenever it completes. -/
theorem profitCheck1_bounds (np ta : List Value) (x : ℤ)
    (h : profitCheck1 np ta = some x) : 0 ≤ x ∧ x ≤ 1 := by
  unfold profitCheck1 at h
  split at h
  · split at h
    · simp only [Option.some.injEq] at h
      subst h
      split <;> omega
    · simp at h
  · simp only [Option.some.injEq] at h
    omega

/-- Profitability check 1.2 contributes 0 or 1. -/
theorem profitCheck2_bounds (cf : List Value) :
    0 ≤ profitCheck2 cf ∧ profitCheck2 cf ≤ 1 := by
  unfold profitCheck2
  split_ifs <;> omega

/-- Profitability check 1.4 contributes 0 or 1. -/
theorem profitCheck4_bounds (cf np : List Value) :
    0 ≤ profitCheck4 cf np ∧ profitCheck4 cf np ≤ 1 := by
  unfold profitCheck4
  split_ifs <;> omega

/-- The profitability sub-score lies in [0, 4] whenever it completes. -/
theorem calculateProfitabilityScore_bounds (stock : Doc) (p : ℤ)
    (h : calculateProfitabilityScore stock = some p) : 0 ≤ p ∧ p ≤ 4 := by
  simp only [calculateProfitabilityScore] at h
  split at h
  · rename_i s1 b heq1 heq2
    simp only [Option.some.injEq] at h
    subst h
    have h1 := profitCheck1_bounds _ _ _ heq1
    have h2 := profitCheck2_bounds
      (getNestedArrayField stock ["cashFlows", "Cash from Operating Activity +"])
    have h4 := profitCheck4_bounds
      (getNestedArrayField stock ["cashFlows", "Cash from Operating Activity +"])
      (getNestedArrayField stock ["profitLoss", "Net Profit +"])
    cases b <;> simp only [if_true, if_false, Bool.false_eq_true, ite_true, ite_false] <;> omega
  · simp at h

/-- Leverage check 2.1 contributes 0 or 1. -/
theorem levCheck1_bounds (b ta : List Value) :
    0 ≤ levCheck1 b ta ∧ levCheck1 b ta ≤ 1 := by
  unfold levCheck1
  split_ifs <;> omega

/-- Leverage check 2.2 contributes 0 or 1. -/
theorem levCheck2_bounds (oa ol : List Value) :
    0 ≤ levCheck2 oa ol ∧ levCheck2 oa ol ≤ 1 := by
  unfold levCheck2
  split_ifs <;> omega

/-- Leverage check 2.3 contributes 0 or 1. -/
theorem levCheck3_bounds (eq : List Value) :
    0 ≤ levCheck3 eq ∧ levCheck3 eq ≤ 1 := by
  unfold levCheck3
  split_ifs <;> omega

/-- The leverage sub-score lies in [0, 3]. -/
theorem calculateLeverageScore_bounds (stock : Doc) :
    0 ≤ calculateLeverageScore stock ∧ calculateLeverageScore stock ≤ 3 := by
  have h1 := levCheck1_bounds (getNestedArrayField stock ["balanceSheet", "Borrowings +"])
    (getNestedArrayField stock ["balanceSheet", "Total Assets"])
  have h2 := levCheck2_bounds (getNestedArrayField stock ["balanceSheet", "Other Assets +"])
    (getNestedArrayField stock ["balanceSheet", "Other Liabilities +"])
  have h3 := levCheck3_bounds (getNestedArrayField stock ["balanceSheet", "Equity Capital"])
  simp only [calculateLeverageScore]
  omega

/-- Efficiency check 3.1 contributes 0 or 1. -/
theorem effCheck1_bounds (opm : List Value) :
    0 ≤ effCheck1 opm ∧ effCheck1 opm ≤ 1 := by
  unfold effCheck1
  split_ifs <;> omega

/-- Efficiency check 3.2 contributes 0 or 1. -/
theorem effCheck2_bounds (sales ta : List Value) :
    0 ≤ effCheck2 sales ta ∧ effCheck2 sales ta ≤ 1 := by
  unfold effCheck2
  split_ifs <;> omega

/-- The operating-efficiency sub-score lies in [0, 2]. -/
theorem calculateOperatingEfficiencyScore_bounds (stock : Doc) :
    0 ≤ calculateOperatingEfficiencyScore stock
    ∧ calculateOperatingEfficiencyScore stock ≤ 2 := by
  have h1 := effCheck1_bounds (getNestedArrayField stock ["profitLoss", "OPM %"])
  have h2 := effCheck2_bounds (getNestedArrayField stock ["profitLoss", "Sales +"])
    (getNestedArrayField stock ["balanceSheet", "Total Assets"])
  simp only [calculateOperatingEfficiencyScore]
  omega

/-- C6 counterexample: a record whose net-profit history has exactly one
entry passes check 1.1's `len > 0` guard but panics on the index
`netProfit[len-2] = netProfit[-1]` (`none` here): `generateFScore` does
not return an integer in [0, 9] for every record input. -/
theorem c6_counterexample :
    generateFScore
      [("profitLoss", Value.vDoc [("Net Profit\u00A0+", Value.vArr [Value.vStr "10"])]),
       ("balanceSheet", Value.vDoc [("Total Assets", Value.vArr [Value.vStr "5"])])]
      = none := rfl

/-- C6 amended: whenever the F-score computation completes without a
panic, the total is an integer in [0, 9] and each sub-score lies in its
documented range — profitability in [0, 4], leverage in [0, 3], operating
efficiency in [0, 2]. -/
theorem c6_amended (stock : Doc) :
    (0 ≤ calculateLeverageScore stock ∧ calculateLeverageScore stock ≤ 3)
    ∧ (0 ≤ calculateOperatingEfficiencyScore stock
        ∧ calculateOperatingEfficiencyScore stock ≤ 2)
    ∧ (∀ p : ℤ, calculateProfitabilityScore stock = some p → 0 ≤ p ∧ p ≤ 4)
    ∧ (∀ n : ℤ, generateFScore stock = some n → 0 ≤ n ∧ n ≤ 9) := by
  refine ⟨calculateLeverageScore_bounds stock, calculateOperatingEfficiencyScore_bounds stock,
    fun p hp => calculateProfitabilityScore_bounds stock p hp, ?_⟩
  intro n hn
  rw [generateFScore, Option.map_eq_some'] at hn
  obtain ⟨p, hp, hsum⟩ := hn
  have hb := calculateProfitabilityScore_bounds stock p hp
  have hl := calculateLeverageScore_bounds stock
  have he := calculateOperatingEfficiencyScore_bounds stock
  omega

/-- Witness for `c6_amended`: a record with a three-entry net-profit
history and a two-entry total-assets history completes with F-score 1,
inside [0, 9]. -/
theorem c6_amended_witness :
    generateFScore
      [("profitLoss", Value.vDoc [("Net Profit\u00A0+",
          Value.vArr [Value.vStr "1", Value.vStr "2", Value.vStr "3"])]),
       ("balanceSheet", Value.vDoc [("Total Assets",
          Value.vArr [Value.vStr "10", Value.vStr "20"])])]
      = some 1
    ∧ (0 ≤ (1 : ℤ) ∧ (1 : ℤ) ≤ 9) := by
  have hev : generateFScore
      [("profitLoss", Value.vDoc [("Net Profit\u00A0+",
          Value.vArr [Value.vStr "1", Value.vStr "2", Value.vStr "3"])]),
       ("balanceSheet", Value.vDoc [("Total Assets",
          Value.vArr [Value.vStr "10", Value.vStr "20"])])]
      = some 1 := by
    simp +decide [generateFScore, calculateProfitabilityScore, calculateLeverageScore,
      calculateOperatingEfficiencyScore, profitCheck1, profitCheck2, profitCheck4,
      levCheck1, levCheck2, levCheck3, effCheck1, effCheck2, increaseInRoa, calculateRoa,
      getNestedArrayField, normalizeKey, trimSpace, replaceSpacePlus, containsChar,
      removeChar, isSpaceChar, stringAt, goIndex, asString, valueAt, toFloat, parseGoFloat,
      takeDigits, digitsVal, List.lookup]
    norm_num
  exact ⟨hev, (c6_amended _).2.2.2 1 hev⟩

/-- Target stock used by the C4 theorems (the Go function ignores it). -/
def c4Stock : Stock := Stock.mk "s" 0 0 0 0 0 0 [] []

/-- C4 counterexample: one section with two period entries over labels
"a" (1 then 2) and "b" (1 then 1).  Label "a" contributes +5; label "b"
is an **equal** pair, contributing 0 — but `comparisons++` runs for it too
(src/main.go:218 is outside the if/else chain), so the divisor is 2 and
the result is 5/2 = 2.5.  The claim counts no comparison for equal values
and so demands 5/1 = 5. -/
theorem c4_counterexample :
    analyzeTrend c4Stock (Value.vDoc [("q", Value.vArr
        [Value.vDoc [("a", Value.vStr "1"), ("b", Value.vStr "1")],
         Value.vDoc [("a", Value.vStr "2"), ("b", Value.vStr "1")]])]) = 5 / 2
    ∧ (5 / 2 : ℚ) ≠ 5 / 1 := by
  refine ⟨?_, by norm_num⟩
  simp +decide [analyzeTrend, trendGo, compareMaps, stepPts, toFloat, parseGoFloat,
    takeDigits, digitsVal, removeChar, containsChar, List.lookup]
  try norm_num

/-- Walking one single-label section accumulates `stepPts` for every
adjacent pair — equal pairs included — and counts every pair. -/
theorem trendGo_single_label (k : String) (p : Value) (vs : List Value) :
    trendGo (some [(k, p)]) (vs.map (fun x => Value.vDoc [(k, x)]))
      = (chainPts (toFloat p) (vs.map toFloat), vs.length) := by
  induction vs generalizing p with
  | nil => rfl
  | cons v rest ih =>
    simp only [List.map_cons, trendGo, compareMaps, List.foldl_cons, List.foldl_nil,
      List.lookup, beq_self_eq_true, if_true, ih, chainPts, List.length_cons]
    rw [Prod.mk.injEq]
    constructor
    · ring
    · omega

/-- C4 amended: over a section holding one label's period values, every
adjacent pair contributes +5 / −5 / 0 (greater / smaller / equal) and
**every** adjacent pair — equal pairs included — counts as a comparison;
the total is divided by that count, and the result is `0.0` when no two
adjacent values exist. -/
theorem c4_amended (stock : Stock) (lbl k : String) (v : Value) (vs : List Value) :
    analyzeTrend stock
        (Value.vDoc [(lbl, Value.vArr ((v :: vs).map (fun x => Value.vDoc [(k, x)])))])
      = (if vs.length = 0 then 0
         else chainPts (toFloat v) (vs.map toFloat) / (vs.length : ℚ)) := by
  have hg := trendGo_single_label k v vs
  simp only [analyzeTrend, List.foldl_cons, List.foldl_nil, List.map_cons, trendGo, hg]
  cases vs with
  | nil => simp [chainPts]
  | cons w ws => simp

/-- Witness for `c4_amended`: values 1, 2, 2 under one label give one +5
pair and one equal pair, hence (5 + 0) / 2. -/
theorem c4_amended_witness :
    analyzeTrend c4Stock
        (Value.vDoc [("q", Value.vArr
          ((Value.vStr "1" :: [Value.vStr "2", Value.vStr "2"]).map
            (fun x => Value.vDoc [("a", x)])))])
      = (if ([Value.vStr "2", Value.vStr "2"] : List Value).length = 0 then 0
         else chainPts (toFloat (Value.vStr "1"))
            (([Value.vStr "2", Value.vStr "2"] : List Value).map toFloat)
          / ((([Value.vStr "2", Value.vStr "2"] : List Value)).length : ℚ)) :=
  c4_amended c4Stock "q" "a" (Value.vStr "1") [Value.vStr "2", Value.vStr "2"]

/-- C9 counterexample: a section stored under the non-breaking-space-plus
key "Net Profit\u00A0+" **is** found when queried with the plain-space
variant "Net Profit +": `getNestedArrayField` normalizes every " +" in the
query key to "\u00A0+" before the lookup (src/main.go:422-425), so the
plain-space lookup returns the stored sequence instead of failing with an
empty one as the claim requires. -/
theorem c9_counterexample :
    getNestedArrayField
        [("profitLoss", Value.vDoc [("Net Profit\u00A0+", Value.vArr [Value.vStr "100"])])]
        ["profitLoss", "Net Profit +"] = [Value.vStr "100"]
    ∧ ([Value.vStr "100"] : List Value) ≠ [] :=
  ⟨rfl, by simp⟩

/-- C9 amended: for a section stored under the non-breaking-space-plus
encoding of a "+"-suffixed label, the nested lookup succeeds **both** with
the non-breaking-space-encoded key and with its plain-space variant — the
plain-space query is normalized to the non-breaking-space encoding before
the lookup, so the two key spellings are interchangeable. -/
theorem c9_amended (vals : List Value) :
    getNestedArrayField
        [("profitLoss", Value.vDoc [("Net Profit\u00A0+", Value.vArr vals)])]
        ["profitLoss", "Net Profit\u00A0+"] = vals
    ∧ getNestedArrayField
        [("profitLoss", Value.vDoc [("Net Profit\u00A0+", Value.vArr vals)])]
        ["profitLoss", "Net Profit +"] = vals :=
  ⟨rfl, rfl⟩

/-- Witness for `c9_amended` at a one-element stored sequence. -/
theorem c9_amended_witness :
    getNestedArrayField
        [("profitLoss", Value.vDoc [("Net Profit\u00A0+", Value.vArr [Value.vStr "7"])])]
        ["profitLoss", "Net Profit\u00A0+"] = [Value.vStr "7"] :=
  (c9_amended [Value.vStr "7"]).1
